import Mathlib

/-!
Verification of the simulation core of `game.py` (top-down survival game).

The Python source is shallowly embedded: pure helpers become Lean functions,
per-tick system bodies become explicit state-transformation functions.
Python floats are modelled by `ℚ` (every concrete value appearing in the
claims is a dyadic rational, represented exactly); Python `//` on floats is
floor division, modelled by `pyFloorDiv`.
-/

namespace Game

/-- An axis-aligned rectangle `(x, y, width, height)`; `x, y` is the
top-left corner, mirroring the `(x, y, w, h)` tuples used throughout
`game.py`. -/
structure Rect where
  x : ℚ
  y : ℚ
  w : ℚ
  h : ℚ
deriving DecidableEq, Repr

/-- Python float floor-division `a // b` (used by the source for
`size.width // 2` and the grid math). -/
def pyFloorDiv (a b : ℚ) : ℚ := ((Int.floor (a / b) : ℤ) : ℚ)

/-- `check_collision(rect1, rect2)` from `game.py` lines 388-392: strict
axis-aligned overlap test. -/
def check_collision (r1 r2 : Rect) : Bool :=
  decide (r1.x < r2.x + r2.w) && decide (r1.x + r1.w > r2.x) &&
  decide (r1.y < r2.y + r2.h) && decide (r1.y + r1.h > r2.y)

theorem check_collision_iff (r1 r2 : Rect) :
    check_collision r1 r2 = true ↔
      (r1.x < r2.x + r2.w ∧ r1.x + r1.w > r2.x ∧ r1.y < r2.y + r2.h ∧ r1.y + r1.h > r2.y) := by
  simp [check_collision, and_assoc]

/-- C10: the rectangle-overlap predicate used by every collision check
returns `true` iff the rectangles overlap with strictly positive extent on
both axes (for rectangles of positive width and height), and two rectangles
that merely share an edge (zero-area contact) are reported as not
colliding. -/
theorem check_collision_strict_overlap (r1 r2 : Rect)
    (hw1 : 0 < r1.w) (hh1 : 0 < r1.h) (hw2 : 0 < r2.w) (hh2 : 0 < r2.h) :
    (check_collision r1 r2 = true ↔
      (max r1.x r2.x < min (r1.x + r1.w) (r2.x + r2.w) ∧
       max r1.y r2.y < min (r1.y + r1.h) (r2.y + r2.h))) ∧
    ((r1.x + r1.w = r2.x ∨ r2.x + r2.w = r1.x ∨
      r1.y + r1.h = r2.y ∨ r2.y + r2.h = r1.y) → check_collision r1 r2 = false) := by
  constructor
  · rw [check_collision_iff]
    constructor
    · rintro ⟨h1, h2, h3, h4⟩
      constructor
      · simp only [max_lt_iff, lt_min_iff]
        exact ⟨⟨by linarith, by linarith⟩, ⟨by linarith, by linarith⟩⟩
      · simp only [max_lt_iff, lt_min_iff]
        exact ⟨⟨by linarith, by linarith⟩, ⟨by linarith, by linarith⟩⟩
    · rintro ⟨hx, hy⟩
      simp only [max_lt_iff, lt_min_iff] at hx hy
      exact ⟨hx.2.1, hx.1.2, hy.2.1, hy.1.2⟩
  · intro hedge
    have : ¬ (check_collision r1 r2 = true) := by
      rw [check_collision_iff]
      rintro ⟨h1, h2, h3, h4⟩
      rcases hedge with h | h | h | h <;> linarith
    simpa using this

/-- Witness for C10 at adjacent 30×30 grid cells: they share an edge and do
not collide. -/
theorem check_collision_strict_overlap_witness :
    check_collision ⟨0, 0, 30, 30⟩ ⟨30, 0, 30, 30⟩ = false := by
  have h := check_collision_strict_overlap ⟨0, 0, 30, 30⟩ ⟨30, 0, 30, 30⟩
    (by norm_num) (by norm_num) (by norm_num) (by norm_num)
  exact h.2 (Or.inl (by norm_num))

/-!  Enemy vs player arbitration, `CollisionSystem.update` lines 1244-1263.
For each enemy overlapping the player's hitbox the encounter ends (game
over) unless both carry a `HeightComponent` and the player's level is
strictly greater than the enemy's. -/

/-- The height-immunity test of `CollisionSystem.update` lines 1253-1258:
the `continue` fires exactly when both height components are present and the
player's level is strictly greater. -/
def height_immune (playerLevel enemyLevel : Option ℤ) : Bool :=
  match playerLevel, enemyLevel with
  | some p, some e => decide (p > e)
  | _, _ => false

/-- One enemy/player pair of `CollisionSystem.update` lines 1251-1262:
`true` means this pair triggers `show_game_over`. -/
def enemy_hits_player (playerRect enemyRect : Rect)
    (playerLevel enemyLevel : Option ℤ) : Bool :=
  check_collision playerRect enemyRect && !height_immune playerLevel enemyLevel

/-- The whole enemy scan for one player (lines 1244-1263): the encounter
ends when some nearby enemy pair fires. -/
def enemy_player_game_over (playerRect : Rect) (playerLevel : Option ℤ)
    (enemies : List (Rect × Option ℤ)) : Bool :=
  enemies.any fun e => enemy_hits_player playerRect e.1 playerLevel e.2

/-- C6: when an enemy's rectangle overlaps the player's hitbox, the
encounter ends iff the player's height level is NOT strictly greater than
the enemy's; in particular an enemy at level 0 against a player at level 1
does nothing, while the same overlapping pair at equal levels ends the
encounter. -/
theorem enemy_player_height_gate (pr er : Rect) (p e lvl : ℤ)
    (hov : check_collision pr er = true) :
    (enemy_hits_player pr er (some p) (some e) = false ↔ e < p) ∧
    enemy_hits_player pr er (some 1) (some 0) = false ∧
    enemy_hits_player pr er (some lvl) (some lvl) = true := by
  refine ⟨?_, ?_, ?_⟩
  · simp [enemy_hits_player, height_immune, hov]
  · simp [enemy_hits_player, height_immune, hov]
  · simp [enemy_hits_player, height_immune, hov]

/-- Witness for C6 at an overlapping concrete pair. -/
theorem enemy_player_height_gate_witness :
    (enemy_hits_player ⟨0, 0, 22, 22⟩ ⟨10, 10, 25, 25⟩ (some 2) (some 1) = false ↔
      (1 : ℤ) < 2) ∧
    enemy_hits_player ⟨0, 0, 22, 22⟩ ⟨10, 10, 25, 25⟩ (some 1) (some 0) = false ∧
    enemy_hits_player ⟨0, 0, 22, 22⟩ ⟨10, 10, 25, 25⟩ (some 5) (some 5) = true :=
  enemy_player_height_gate ⟨0, 0, 22, 22⟩ ⟨10, 10, 25, 25⟩ 2 1 5
    (by simp only [check_collision]; norm_num)

/-!  Stairs transitions, `StairsSystem.update` lines 1417-1479. -/

/-- The `StairsComponent` together with the stairs entity's position/size
(position is the rectangle's center, `create_stairs` lines 1921-1931). -/
structure Stairs where
  x : ℚ
  y : ℚ
  w : ℚ
  h : ℚ
  dirX : ℚ
  dirY : ℚ
  fromLevel : ℤ
  toLevel : ℤ
deriving DecidableEq, Repr

/-- The stairs footprint rectangle of lines 1435-1436 / 1471-1472:
center-origin converted to top-left with Python `//` halving. -/
def stairs_footprint (s : Stairs) : Rect :=
  ⟨s.x - pyFloorDiv s.w 2, s.y - pyFloorDiv s.h 2, s.w, s.h⟩

/-- One (player, stairs) interaction of `StairsSystem.update` lines
1424-1455: the player's new height level.  The source's "dot product" is
taken between the vector from the stairs center to the PLAYER CENTER and
the stairs axis — a positional side test; no velocity is read. -/
def stairs_player_step (px py pw ph : ℚ) (level : ℤ) (s : Stairs) : ℤ :=
  let pcx := px + pw / 2
  let pcy := py + ph / 2
  if check_collision ⟨px, py, pw, ph⟩ (stairs_footprint s) then
    if s.dirX = 0 ∧ s.dirY = 0 then level
    else
      let dot := (pcx - s.x) * s.dirX + (pcy - s.y) * s.dirY
      if dot > 0 then
        if level = s.fromLevel then s.toLevel else level
      else
        if level = s.toLevel then s.fromLevel else level
  else level

/-- One (enemy, stairs) interaction of `StairsSystem.update` lines
1458-1479: enemies toggle level on ANY overlap with the stairs footprint;
no direction or motion of any kind is consulted. -/
def stairs_enemy_step (ex ey ew eh : ℚ) (level : ℤ) (s : Stairs) : ℤ :=
  if check_collision ⟨ex, ey, ew, eh⟩ (stairs_footprint s) then
    if level = s.fromLevel then s.toLevel
    else if level = s.toLevel then s.fromLevel
    else level
  else level

/-- Counterexample to C4: a 25×25 enemy overlapping a stairs footprint
transitions from the source level 0 to the destination level 1 although its
center lies on the NEGATIVE side of the stairs axis (positional dot product
= -15/2 < 0), and the source consults no motion at all (the enemy branch
has no directional check whatsoever).  Under the claim no from→to
transition may happen without a positive dot product along the axis. -/
theorem stairs_enemy_no_direction_check :
    stairs_enemy_step 0 0 25 25 0 ⟨20, 10, 30, 30, 1, 0, 0, 1⟩ = 1 ∧
    ((0 : ℚ) + 25 / 2 - 20) * 1 + ((0 : ℚ) + 25 / 2 - 10) * 0 < 0 := by
  constructor
  · simp only [stairs_enemy_step, stairs_footprint, check_collision, pyFloorDiv]
    norm_num
  · norm_num

/-- C4 (amended): transitions are decided as follows.  For a PLAYER the
test is the sign of the dot product between (player center − stairs
center) and the stairs axis — a positional side test, not a motion test:
on overlap with a nonzero axis, positive dot and level = from_level goes to
to_level, and non-positive dot and level = to_level goes back to
from_level.  For an ENEMY any overlap toggles the level with no directional
check at all. -/
theorem stairs_step_characterization (px py pw ph ex ey ew eh : ℚ) (s : Stairs)
    (hne : s.fromLevel ≠ s.toLevel) (haxis : ¬ (s.dirX = 0 ∧ s.dirY = 0)) :
    (stairs_player_step px py pw ph s.fromLevel s = s.toLevel ↔
      (check_collision ⟨px, py, pw, ph⟩ (stairs_footprint s) = true ∧
       (px + pw / 2 - s.x) * s.dirX + (py + ph / 2 - s.y) * s.dirY > 0)) ∧
    (stairs_player_step px py pw ph s.toLevel s = s.fromLevel ↔
      (check_collision ⟨px, py, pw, ph⟩ (stairs_footprint s) = true ∧
       ¬ ((px + pw / 2 - s.x) * s.dirX + (py + ph / 2 - s.y) * s.dirY > 0))) ∧
    (stairs_enemy_step ex ey ew eh s.fromLevel s = s.toLevel ↔
      check_collision ⟨ex, ey, ew, eh⟩ (stairs_footprint s) = true) := by
  have hne' : s.toLevel ≠ s.fromLevel := Ne.symm hne
  refine ⟨?_, ?_, ?_⟩
  · by_cases hc : check_collision ⟨px, py, pw, ph⟩ (stairs_footprint s) = true
    · by_cases hd : (px + pw / 2 - s.x) * s.dirX + (py + ph / 2 - s.y) * s.dirY > 0
      · simp [stairs_player_step, hc, haxis, hd]
      · simp [stairs_player_step, hc, haxis, hd, hne, hne']
    · simp [stairs_player_step, hc, hne]
  · by_cases hc : check_collision ⟨px, py, pw, ph⟩ (stairs_footprint s) = true
    · by_cases hd : (px + pw / 2 - s.x) * s.dirX + (py + ph / 2 - s.y) * s.dirY > 0
      · simp [stairs_player_step, hc, haxis, hd, hne']
      · simp [stairs_player_step, hc, haxis, hd]
    · simp [stairs_player_step, hc, hne']
  · by_cases hc : check_collision ⟨ex, ey, ew, eh⟩ (stairs_footprint s) = true
    · simp [stairs_enemy_step, hc]
    · simp [stairs_enemy_step, hc, hne]

/-- Witness for C4's amended theorem at a concrete configuration. -/
theorem stairs_step_characterization_witness :
    (stairs_player_step 20 0 30 30 0 ⟨20, 10, 30, 30, 1, 0, 0, 1⟩ = 1 ↔
      (check_collision ⟨20, 0, 30, 30⟩ (stairs_footprint ⟨20, 10, 30, 30, 1, 0, 0, 1⟩) = true ∧
       ((20 : ℚ) + 30 / 2 - 20) * 1 + ((0 : ℚ) + 30 / 2 - 10) * 0 > 0)) ∧
    (stairs_player_step 20 0 30 30 1 ⟨20, 10, 30, 30, 1, 0, 0, 1⟩ = 0 ↔
      (check_collision ⟨20, 0, 30, 30⟩ (stairs_footprint ⟨20, 10, 30, 30, 1, 0, 0, 1⟩) = true ∧
       ¬ (((20 : ℚ) + 30 / 2 - 20) * 1 + ((0 : ℚ) + 30 / 2 - 10) * 0 > 0))) ∧
    (stairs_enemy_step 0 0 25 25 0 ⟨20, 10, 30, 30, 1, 0, 0, 1⟩ = 1 ↔
      check_collision ⟨0, 0, 25, 25⟩ (stairs_footprint ⟨20, 10, 30, 30, 1, 0, 0, 1⟩) = true) :=
  stairs_step_characterization 20 0 30 30 0 0 25 25 ⟨20, 10, 30, 30, 1, 0, 0, 1⟩
    (by decide) (by decide)

/-!  Projectile vs obstacle arbitration, `CollisionSystem.update` lines
1204-1224.  The loop body is

    for obs in nearby_obstacles:
        obs_rect = get_entity_rect(obs)
        if obs_rect and check_collision(proj_rect, obs_rect):
            projectiles_to_remove.add(proj.id)
        break

with the `break` aligned to the `if`, NOT inside it: the loop
unconditionally stops after examining the FIRST obstacle of the list. -/

/-- Whether the projectile is marked for destruction by the projectile-vs-
obstacle loop of `CollisionSystem.update` lines 1220-1224, over the list of
nearby obstacle rectangles in iteration order. -/
def projectile_obstacle_removed (projRect : Rect) (obstacles : List Rect) : Bool :=
  match obstacles with
  | [] => false
  | o :: _ => check_collision projRect o

/-- C3 failing-input evaluation: a 10×10 projectile whose rectangle overlaps
the second nearby obstacle but not the first is NOT marked for destruction,
because the dedented `break` stops the loop after the first obstacle.  (In
the quadtree path the slip is masked — the spatial query only returns
obstacles already overlapping the projectile — but in the documented
fallback path, where `nearby_obstacles` is the full obstacle list, an
overlapping projectile survives.) -/
theorem projectile_obstacle_break_slip :
    projectile_obstacle_removed ⟨0, 0, 10, 10⟩ [⟨50, 50, 30, 30⟩, ⟨5, 5, 30, 30⟩] = false ∧
    check_collision ⟨0, 0, 10, 10⟩ ⟨5, 5, 30, 30⟩ = true := by
  constructor
  · simp only [projectile_obstacle_removed, check_collision]
    norm_num
  · simp only [check_collision]
    norm_num

/-!  Harvesting, `HarvestSystem.update` lines 1486-1551.  The update loop
ends in

    for entity in ...:
        ...
        if entity.id == nearby_tree_id and input_comp.harvest_pressed:
            ...progress accrual...
    else:
            # Only reset if this tree was being chopped by this player
            if tree.current_chopper == player_entity.id:
                ...

i.e. a Python `for`/`else`: since the loop never executes `break`, the
reset block runs exactly ONCE after the loop, operating on the `tree`
variable left over from the LAST iteration — not per tree. -/

/-- `TREE_CHOP_TIME` (line 343). -/
def TREE_CHOP_TIME : ℚ := 3 / 2

/-- `HARVEST_RANGE` (line 344). -/
def HARVEST_RANGE : ℚ := 60

/-- The harvest-relevant fields of a tree entity: `TreeComponent` (lines
207-211) plus its center position (trees store center coordinates). -/
structure HTree where
  id : ℕ
  isChopped : Bool
  progress : ℚ
  chopper : Option ℕ
  x : ℚ
  y : ℚ
deriving DecidableEq, Repr

/-- Squared distance from the player center to a tree center.  The source
(lines 1519-1521) compares Euclidean distances computed with `math.sqrt`;
comparing squares is equivalent since `sqrt` is monotone on nonnegatives. -/
def tree_dist_sq (pcx pcy : ℚ) (t : HTree) : ℚ :=
  (pcx - t.x) ^ 2 + (pcy - t.y) ^ 2

/-- Nearby-tree selection of `HarvestSystem.update` lines 1504-1525: when
harvest is pressed, the id of the closest unchopped tree within
`HARVEST_RANGE` (strict `<` keeps the earlier tree on ties), else none. -/
def select_nearby_tree (pcx pcy : ℚ) (pressed : Bool) (trees : List HTree) : Option ℕ :=
  if pressed then
    (trees.foldl
      (fun (acc : Option (ℕ × ℚ)) t =>
        if t.isChopped then acc
        else
          let d2 := tree_dist_sq pcx pcy t
          if d2 ≤ HARVEST_RANGE ^ 2 ∧ (∀ b ∈ acc, d2 < b.2) then some (t.id, d2) else acc)
      none).map Prod.fst
  else none

/-- The per-tree body of the update loop, lines 1528-1546 (the `if` branch;
entity removal is deferred to end of tick, so the chopped tree stays in the
list with `isChopped = true`).  Returns the updated tree and the wood
granted. -/
def chop_step (pid : ℕ) (nearby : Option ℕ) (pressed : Bool) (dt : ℚ) (t : HTree) :
    HTree × ℕ :=
  if t.isChopped then (t, 0)
  else if nearby = some t.id ∧ pressed then
    let p := t.progress + dt / TREE_CHOP_TIME
    if p ≥ 1 then ({ t with progress := p, chopper := some pid, isChopped := true }, 1)
    else ({ t with progress := p, chopper := some pid }, 0)
  else (t, 0)

/-- The reset block of the `for`/`else` clause, lines 1547-1551. -/
def reset_if_chopper (pid : ℕ) (t : HTree) : HTree :=
  if t.chopper = some pid then { t with chopper := none, progress := 0 } else t

/-- Applies the `for`/`else` reset: since the loop contains no `break`, the
`else` block always runs once after the loop and touches only the tree of
the LAST iteration. -/
def apply_for_else (pid : ℕ) : List HTree → List HTree
  | [] => []
  | [t] => [reset_if_chopper pid t]
  | t :: rest => t :: apply_for_else pid rest

/-- `HarvestSystem.update` lines 1486-1551 for the single local player:
given the player id, player center, harvest input and `dt`, returns the
updated tree list and the wood gained. -/
def harvest_update (pid : ℕ) (pcx pcy : ℚ) (pressed : Bool) (dt : ℚ)
    (trees : List HTree) : List HTree × ℕ :=
  let nearby := select_nearby_tree pcx pcy pressed trees
  let stepped := trees.map (chop_step pid nearby pressed dt)
  (apply_for_else pid (stepped.map Prod.fst), (stepped.map Prod.snd).sum)

/-- C2 failing-input evaluation: tree 1 has partial progress 1/2 with
player 7 recorded as chopper; tree 2 is untouched.  Running the harvest
update with harvest-pressed = false leaves tree 1's progress at 1/2 and its
chopper recorded — only the LAST tree of the iteration is ever considered
by the `for`/`else` reset, so the claimed reset-to-zero does not happen. -/
theorem harvest_for_else_slip :
    harvest_update 7 0 0 false (1 / 60)
        [⟨1, false, 1 / 2, some 7, 100, 100⟩, ⟨2, false, 0, none, 200, 100⟩] =
      ([⟨1, false, 1 / 2, some 7, 100, 100⟩, ⟨2, false, 0, none, 200, 100⟩], 0) := by
  simp only [harvest_update, select_nearby_tree, chop_step, apply_for_else,
    reset_if_chopper, tree_dist_sq, TREE_CHOP_TIME, HARVEST_RANGE]
  norm_num [chop_step, reset_if_chopper]

/-!  Encounter director and per-tick outbound networking,
`GameWindow.update` lines 2896-2974 with the day/night clock of
`update_day_night_cycle` lines 2849-2894. -/

/-- Constants, lines 299 and 324-335. -/
def FPS : ℚ := 60

def INITIAL_ENEMY_SPAWN_RATE : ℚ := 60

def MIN_ENEMY_SPAWN_RATE : ℚ := 10

def MAX_ENEMIES : ℕ := 150

def ENEMY_SPAWN_ACCELERATION : ℚ := 1 / 2

def DAY_LENGTH : ℚ := 60

def NIGHT_LENGTH : ℚ := 45

def NIGHT_SPAWN_MULTIPLIER_BASE : ℚ := 3 / 2

def NIGHT_SPAWN_MULTIPLIER_PER_DAY : ℚ := 3 / 10

def NIGHT_MAX_ENEMIES_BASE : ℕ := 300

def NIGHT_MAX_ENEMIES_PER_DAY : ℕ := 10

/-- The encounter-director state carried across ticks by `GameWindow`
(`is_night`, `cycle_time`, `day_count`, `enemy_spawn_timer`, plus the
active enemy count the spawn block reads back from the world). -/
structure DirectorState where
  isNight : Bool
  cycleTime : ℚ
  dayCount : ℕ
  spawnTimer : ℚ
  enemyCount : ℕ
deriving DecidableEq, Repr

/-- The phase transitions of `update_day_night_cycle` (lines 2849-2894,
presentation labels omitted): day flips to night after `DAY_LENGTH`, night
flips to day after `NIGHT_LENGTH` incrementing `day_count`. -/
def update_day_night (s : DirectorState) : DirectorState :=
  if ¬ s.isNight then
    if s.cycleTime ≥ DAY_LENGTH then { s with isNight := true, cycleTime := 0 } else s
  else
    if s.cycleTime ≥ NIGHT_LENGTH then
      { s with isNight := false, cycleTime := 0, dayCount := s.dayCount + 1 }
    else s

/-- The day-scaled population ceiling of line 2953:
`min(NIGHT_MAX_ENEMIES_BASE + (day_count - 1) * NIGHT_MAX_ENEMIES_PER_DAY,
MAX_ENEMIES)`.  (`day_count` starts at 1, line 2506; ℕ subtraction agrees
with Python for every reachable `day_count`, and the `min` clamps to 150
either way.) -/
def night_max_enemies (day : ℕ) : ℕ :=
  min (NIGHT_MAX_ENEMIES_BASE + (day - 1) * NIGHT_MAX_ENEMIES_PER_DAY) MAX_ENEMIES

/-- The spawn interval of lines 2952-2957. -/
def spawn_interval (day : ℕ) (cycleTime : ℚ) : ℚ :=
  let mult := NIGHT_SPAWN_MULTIPLIER_BASE + ((day : ℚ) - 1) * NIGHT_SPAWN_MULTIPLIER_PER_DAY
  let base := INITIAL_ENEMY_SPAWN_RATE - cycleTime * ENEMY_SPAWN_ACCELERATION * mult
  max MIN_ENEMY_SPAWN_RATE base / FPS / mult

/-- One `GameWindow.update` tick restricted to the clock and the
encounter-director spawn block (lines 2900-2903 and 2950-2966): advances
`cycle_time`, runs the day/night clock, and — during night, when this peer
is allowed to spawn (single-player, or connected host, line 2951) — spawns
one enemy when the count is strictly below the ceiling and the timer has
elapsed.  Returns the new state and whether a spawn happened. -/
def director_tick (s : DirectorState) (dt : ℚ)
    (isMultiplayer isHost connected : Bool) : DirectorState × Bool :=
  let s1 := update_day_night { s with cycleTime := s.cycleTime + dt }
  if s1.isNight ∧ (¬ isMultiplayer ∨ (isHost ∧ connected)) then
    let timer := s1.spawnTimer + dt
    if s1.enemyCount < night_max_enemies s1.dayCount ∧
        timer ≥ spawn_interval s1.dayCount s1.cycleTime then
      ({ s1 with spawnTimer := 0, enemyCount := s1.enemyCount + 1 }, true)
    else ({ s1 with spawnTimer := timer }, false)
  else (s1, false)

/-- A run of the director over a list of ticks
`(dt, isMultiplayer, isHost, connected)`. -/
def director_run (s : DirectorState) (ticks : List (ℚ × Bool × Bool × Bool)) :
    DirectorState :=
  ticks.foldl (fun s t => (director_tick s t.1 t.2.1 t.2.2.1 t.2.2.2).1) s

/-- The message kinds of the wire protocol (`player_update`, `projectile`,
`enemy_spawn`), lines 2917, 2930, 2937/2972. -/
inductive MsgType where
  | player_update
  | projectile
  | enemy_spawn
deriving DecidableEq, Repr

/-- All outbound `send_data` calls of one `GameWindow.update` tick (lines
2913-2919 and 2968-2974): a player-position update whenever connected in
multiplayer, and an enemy-spawn message when the director spawned this
tick.  No code path in `game.py` ever sends a `projectile` message —
`ProjectileComponent.network_sent` (line 204) is declared but never read or
written, and the receive handler for `projectile` (line 2930) has no
sending counterpart. -/
def tick_outbound_messages (s : DirectorState) (dt : ℚ)
    (isMultiplayer isHost connected : Bool) : List MsgType :=
  (if isMultiplayer ∧ connected then [MsgType.player_update] else []) ++
  (if (director_tick s dt isMultiplayer isHost connected).2 ∧ isMultiplayer ∧ connected
   then [MsgType.enemy_spawn] else [])

/-- C5 failing-input evaluation: no tick of `GameWindow.update` ever sends
a projectile-spawn message — for a locally-owned, previously unsent
projectile the number of projectile-spawn messages sent is 0, never 1. -/
theorem projectile_spawn_never_sent (s : DirectorState) (dt : ℚ)
    (isMultiplayer isHost connected : Bool) :
    MsgType.projectile ∉ tick_outbound_messages s dt isMultiplayer isHost connected := by
  simp only [tick_outbound_messages]
  intro hmem
  rcases List.mem_append.mp hmem with h | h <;>
    · split at h <;> simp_all

/-- `night_max_enemies` is the constant 150: the base 300 already exceeds
the absolute maximum `MAX_ENEMIES = 150`, so the `min` always clamps. -/
theorem night_max_enemies_eq (day : ℕ) : night_max_enemies day = 150 := by
  simp only [night_max_enemies, NIGHT_MAX_ENEMIES_BASE, NIGHT_MAX_ENEMIES_PER_DAY, MAX_ENEMIES]
  omega

/-- A single director tick: the enemy count either stays, or the spawn
guard `current_enemies < night_max_enemies` held and it grows by one. -/
theorem director_tick_count (s : DirectorState) (dt : ℚ) (m hst c : Bool) :
    (director_tick s dt m hst c).1.enemyCount = s.enemyCount ∨
    (s.enemyCount < night_max_enemies (director_tick s dt m hst c).1.dayCount ∧
     (director_tick s dt m hst c).1.enemyCount = s.enemyCount + 1) := by
  have hcount : (update_day_night { s with cycleTime := s.cycleTime + dt }).enemyCount
      = s.enemyCount := by
    simp only [update_day_night]
    split <;> split <;> rfl
  simp only [director_tick]
  split
  · split
    · right
      rename_i hguard
      have h1 := hguard.1
      rw [night_max_enemies_eq, hcount] at h1
      exact ⟨by rw [night_max_enemies_eq]; exact h1, by simp [hcount]⟩
    · left; simp [hcount]
  · left; simp [hcount]

/-- C7: a new enemy is spawned only when the current enemy count is
strictly below the day-scaled ceiling clamped to the absolute maximum, and
over an arbitrarily long run the director never pushes the active enemy
count above that clamped cap. -/
theorem director_spawn_cap (s0 : DirectorState) (ticks : List (ℚ × Bool × Bool × Bool))
    (h : s0.enemyCount ≤ night_max_enemies s0.dayCount) :
    (director_run s0 ticks).enemyCount ≤
      night_max_enemies (director_run s0 ticks).dayCount ∧
    ∀ (s : DirectorState) (dt : ℚ) (m hst c : Bool),
      (director_tick s dt m hst c).1.enemyCount ≠ s.enemyCount →
      s.enemyCount < night_max_enemies (director_tick s dt m hst c).1.dayCount := by
  constructor
  · rw [night_max_enemies_eq]
    rw [night_max_enemies_eq] at h
    induction ticks generalizing s0 with
    | nil => simpa [director_run] using h
    | cons t rest ih =>
      have hstep := director_tick_count s0 t.1 t.2.1 t.2.2.1 t.2.2.2
      rw [night_max_enemies_eq] at hstep
      have : (director_tick s0 t.1 t.2.1 t.2.2.1 t.2.2.2).1.enemyCount ≤ 150 := by
        rcases hstep with heq | ⟨hlt, heq⟩ <;> omega
      simpa [director_run] using ih _ this
  · intro s dt m hst c hne
    rcases director_tick_count s dt m hst c with heq | ⟨hlt, _⟩
    · exact absurd heq hne
    · exact hlt

/-- Witness for C7 starting from the fresh game state (day 1, day phase,
no enemies) over a couple of concrete ticks. -/
theorem director_spawn_cap_witness :
    (director_run ⟨false, 0, 1, 0, 0⟩ [(1, false, false, false), (60, false, false, false)]).enemyCount ≤
      night_max_enemies (director_run ⟨false, 0, 1, 0, 0⟩
        [(1, false, false, false), (60, false, false, false)]).dayCount ∧
    ∀ (s : DirectorState) (dt : ℚ) (m hst c : Bool),
      (director_tick s dt m hst c).1.enemyCount ≠ s.enemyCount →
      s.enemyCount < night_max_enemies (director_tick s dt m hst c).1.dayCount :=
  director_spawn_cap ⟨false, 0, 1, 0, 0⟩ [(1, false, false, false), (60, false, false, false)]
    (by simp [night_max_enemies_eq])

/-!  Network reader framing, `NetworkManager._receive_thread` lines
2202-2241.  Each received chunk is appended to `pending_data`; the inner
`while` then repeatedly strips complete frames: a 4-byte big-endian length
prefix (`struct.unpack('!I', ...)`) followed by that many payload bytes.  A
payload that fails to decode (`json.loads` raising) is dropped by the bare
`except: pass`; an incomplete frame stays in `pending_data` for the next
chunk.  Bytes are modelled as `ℕ` values; the JSON decode is a parameter
`decode` since the claim concerns the framing loop. -/

/-- `struct.unpack('!I', pending_data[:4])[0]`: big-endian u32 from the
first four pending bytes (only called when at least 4 bytes are pending). -/
def unpack_u32 (l : List ℕ) : ℕ :=
  l.getD 0 0 * 16777216 + l.getD 1 0 * 65536 + l.getD 2 0 * 256 + l.getD 3 0

/-- `struct.pack('!I', n)`: the four big-endian bytes of `n < 2^32` (the
sender, `send_data` lines 2177-2180). -/
def pack_u32 (n : ℕ) : List ℕ :=
  [n / 16777216 % 256, n / 65536 % 256, n / 256 % 256, n % 256]

/-- A wire frame: 4-byte length prefix followed by the payload
(`length + data_bytes`, line 2180). -/
def encode_frame (payload : List ℕ) : List ℕ :=
  pack_u32 payload.length ++ payload

/-- The inner `while len(self.pending_data) >= 4` loop of lines 2224-2236:
strips complete frames off `pending`, appending each successfully decoded
message; returns the leftover pending bytes and the decoded messages in
order. -/
def drain {M : Type} (decode : List ℕ → Option M) (pending : List ℕ) :
    List ℕ × List M :=
  if _h4 : 4 ≤ pending.length then
    let len := unpack_u32 pending
    if _hlen : 4 + len ≤ pending.length then
      let payload := (pending.drop 4).take len
      let r := drain decode (pending.drop (4 + len))
      (r.1, (decode payload).toList ++ r.2)
    else (pending, [])
  else (pending, [])
termination_by pending.length
decreasing_by
  simp only [List.length_drop]
  omega

/-- A chunk arrival (lines 2211-2215 followed by the parse loop): the chunk
is appended to the pending buffer, then complete frames are drained. -/
def receive_chunk {M : Type} (decode : List ℕ → Option M) (pending chunk : List ℕ) :
    List ℕ × List M :=
  drain decode (pending ++ chunk)

theorem unpack_pack (n : ℕ) (hn : n < 4294967296) (rest : List ℕ) :
    unpack_u32 (pack_u32 n ++ rest) = n := by
  simp only [unpack_u32, pack_u32, List.cons_append, List.nil_append,
    List.getD_cons_zero, List.getD_cons_succ]
  omega

theorem pack_u32_length (n : ℕ) : (pack_u32 n).length = 4 := rfl

/-- Draining a buffer that starts with one complete frame strips that frame
and continues with the remainder. -/
theorem drain_encode_frame {M : Type} (decode : List ℕ → Option M)
    (p rest : List ℕ) (hp : p.length < 4294967296) :
    drain decode (encode_frame p ++ rest) =
      ((drain decode rest).1, (decode p).toList ++ (drain decode rest).2) := by
  rw [drain]
  have hlen : (encode_frame p ++ rest).length = 4 + p.length + rest.length := by
    simp only [encode_frame, pack_u32, List.length_append, List.length_cons,
      List.length_nil]
  have h4 : 4 ≤ (encode_frame p ++ rest).length := by omega
  have hify : unpack_u32 (encode_frame p ++ rest) = p.length := by
    rw [encode_frame, List.append_assoc]
    exact unpack_pack p.length hp (p ++ rest)
  rw [dif_pos h4]
  simp only [hify]
  rw [dif_pos (by omega)]
  have hdrop4 : (encode_frame p ++ rest).drop 4 = p ++ rest := by
    rw [encode_frame, List.append_assoc, ← pack_u32_length p.length]
    exact List.drop_left _ _
  have hpayload : ((encode_frame p ++ rest).drop 4).take p.length = p := by
    rw [hdrop4]
    exact List.take_left p rest
  have hrest : (encode_frame p ++ rest).drop (4 + p.length) = rest := by
    rw [← List.drop_drop, hdrop4]
    exact List.drop_left _ _
  rw [hpayload, hrest]

/-- Draining a strict prefix of a frame consumes nothing and decodes
nothing: the fragment waits in the pending buffer. -/
theorem drain_partial_frame {M : Type} (decode : List ℕ → Option M)
    (p a b : List ℕ) (hp : p.length < 4294967296)
    (hsplit : a ++ b = encode_frame p) (hb : b ≠ []) :
    drain decode a = (a, []) := by
  rw [drain]
  by_cases h4 : 4 ≤ a.length
  · have halen : a.length + b.length = 4 + p.length := by
      have := congrArg List.length hsplit
      simp only [encode_frame, pack_u32, List.length_append, List.length_cons,
        List.length_nil] at this
      omega
    have hify : unpack_u32 a = p.length := by
      have hga : ∀ i, i < 4 → a.getD i 0 = (encode_frame p).getD i 0 := by
        intro i hi
        rw [← hsplit]
        exact (List.getD_append a b 0 i (by omega)).symm
      have hup : unpack_u32 a = unpack_u32 (encode_frame p) := by
        simp only [unpack_u32]
        rw [hga 0 (by omega), hga 1 (by omega), hga 2 (by omega), hga 3 (by omega)]
      rw [hup, encode_frame]
      exact unpack_pack p.length hp p
    have hbpos : 0 < b.length := List.length_pos.mpr hb
    rw [dif_pos h4]
    simp only [hify]
    rw [dif_neg (by omega)]
  · rw [dif_neg h4]

theorem drain_nil {M : Type} (decode : List ℕ → Option M) :
    drain decode [] = ([], []) := by
  rw [drain]
  simp

/-- A buffer holding exactly one complete frame yields the decode result of
its payload (empty when the payload fails to decode) and leaves nothing
pending. -/
theorem drain_single_frame {M : Type} (decode : List ℕ → Option M)
    (p : List ℕ) (hp : p.length < 4294967296) :
    drain decode (encode_frame p) = ([], (decode p).toList) := by
  have h := drain_encode_frame decode p [] hp
  rw [List.append_nil] at h
  rw [h, drain_nil]
  simp

/-- C9: a length-prefixed frame split across two socket reads yields no
message on the first read and exactly one decoded message once the second
fragment arrives; and a frame whose payload fails to decode is silently
discarded while a following well-formed frame is still decoded.
`receive_chunk` is one iteration of the reader thread (append the chunk,
drain complete frames). -/
theorem network_reader_resilience {M : Type} (decode : List ℕ → Option M)
    (p : List ℕ) (m : M) (hp : p.length < 4294967296) (hdec : decode p = some m)
    (a b : List ℕ) (hsplit : a ++ b = encode_frame p) (hb : b ≠ []) :
    receive_chunk decode [] a = (a, []) ∧
    receive_chunk decode a b = ([], [m]) ∧
    ∀ bad : List ℕ, bad.length < 4294967296 → decode bad = none →
      receive_chunk decode [] (encode_frame bad ++ encode_frame p) = ([], [m]) := by
  refine ⟨?_, ?_, ?_⟩
  · rw [receive_chunk, List.nil_append]
    exact drain_partial_frame decode p a b hp hsplit hb
  · rw [receive_chunk, hsplit, drain_single_frame decode p hp, hdec]
    rfl
  · intro bad hbad hbaddec
    rw [receive_chunk, List.nil_append, drain_encode_frame decode bad _ hbad,
      drain_single_frame decode p hp, hdec, hbaddec]
    rfl

/-- Witness for C9: the frame for payload byte `65` is `[0,0,0,1,65]`;
split as `[0,0]` then `[0,1,65]`, with the head byte as the decoder. -/
theorem network_reader_resilience_witness :
    receive_chunk (fun l => l.head?) ([] : List ℕ) [0, 0] = ([0, 0], []) ∧
    receive_chunk (fun l => l.head?) [0, 0] [0, 1, 65] = ([], [65]) ∧
    ∀ bad : List ℕ, bad.length < 4294967296 → (fun l : List ℕ => l.head?) bad = none →
      receive_chunk (fun l => l.head?) [] (encode_frame bad ++ encode_frame [65]) =
        ([], [65]) :=
  network_reader_resilience (fun l => l.head?) [65] 65 (by norm_num) rfl
    [0, 0] [0, 1, 65] (by decide) (by decide)

/-!  Spatial partitioning, `QuadTree` lines 464-537.  A node's `nodes`
list is either empty or holds exactly the four quadrants created by
`split` (lines 480-490), so the embedding uses a `leaf` / `node`
distinction with four explicit children in the source's order (top-left,
top-right, bottom-left, bottom-right).  `max_objects = 8` and
`max_levels = 6` are the constructor defaults (line 466), shared by every
node the source ever builds.  `insert` recurses one level deeper per call
and the source stops splitting at `max_levels`, so recursion depth is
bounded; the embedding makes that bound explicit with a fuel argument
`insertFuel` whose exhaustion case stores the object at the current node
(unreachable for trees built by `QuadTree.insert` below). -/

def MAX_OBJECTS : ℕ := 8

def MAX_LEVELS : ℕ := 6

inductive QTree where
  | leaf (bounds : Rect) (level : ℕ) (objects : List (Rect × ℕ))
  | node (bounds : Rect) (level : ℕ) (objects : List (Rect × ℕ)) (tl tr bl br : QTree)

def QTree.bounds : QTree → Rect
  | .leaf b _ _ => b
  | .node b _ _ _ _ _ _ => b

/-- `_rect_fits` (lines 492-497): the rect lies fully inside the bounds
(closed containment, so edge-straddling rects fit no child). -/
def rect_fits (r b : Rect) : Bool :=
  decide (r.x ≥ b.x) && decide (r.y ≥ b.y) &&
  decide (r.x + r.w ≤ b.x + b.w) && decide (r.y + r.h ≤ b.y + b.h)

/-- `split` (lines 480-490): four empty quadrants at the next level, in
source order TL, TR, BL, BR. -/
def split_children (b : Rect) (level : ℕ) : QTree × QTree × QTree × QTree :=
  let hw := b.w / 2
  let hh := b.h / 2
  (.leaf ⟨b.x, b.y, hw, hh⟩ (level + 1) [],
   .leaf ⟨b.x + hw, b.y, hw, hh⟩ (level + 1) [],
   .leaf ⟨b.x, b.y + hh, hw, hh⟩ (level + 1) [],
   .leaf ⟨b.x + hw, b.y + hh, hw, hh⟩ (level + 1) [])

/-- The `for idx, node in enumerate(self.nodes): if fits: insert; return`
pattern (lines 501-504 and 514-519): place the object into the FIRST child
whose bounds fully contain it, `none` when it straddles every child. -/
def try_place (ins : QTree → Rect × ℕ → QTree) (o : Rect × ℕ)
    (c : QTree × QTree × QTree × QTree) :
    Option (QTree × QTree × QTree × QTree) :=
  if rect_fits o.1 c.1.bounds then some (ins c.1 o, c.2.1, c.2.2.1, c.2.2.2)
  else if rect_fits o.1 c.2.1.bounds then some (c.1, ins c.2.1 o, c.2.2.1, c.2.2.2)
  else if rect_fits o.1 c.2.2.1.bounds then some (c.1, c.2.1, ins c.2.2.1 o, c.2.2.2)
  else if rect_fits o.1 c.2.2.2.bounds then some (c.1, c.2.1, c.2.2.1, ins c.2.2.2 o)
  else none

/-- The redistribution `while` loop of lines 510-521: each object of the
list is moved into the first child it fits in (children updated as the
loop progresses), the others are kept at this node in order. -/
def place_all (ins : QTree → Rect × ℕ → QTree) :
    List (Rect × ℕ) → QTree × QTree × QTree × QTree →
    List (Rect × ℕ) × (QTree × QTree × QTree × QTree)
  | [], c => ([], c)
  | o :: rest, c =>
    match try_place ins o c with
    | some c2 => place_all ins rest c2
    | none =>
      let r := place_all ins rest c
      (o :: r.1, r.2)

/-- Fuel-exhaustion fallback: store at the current node. -/
def addLocal : QTree → Rect × ℕ → QTree
  | .leaf b lvl objs, o => .leaf b lvl (objs ++ [o])
  | .node b lvl objs tl tr bl br, o => .node b lvl (objs ++ [o]) tl tr bl br

/-- One unfolding of `insert` (lines 499-521), with `ins` standing for the
recursive call on a child: descend into the first fitting child when
children exist; otherwise append here and, if over `max_objects` below
`max_levels`, split (if needed) and redistribute. -/
def insertStep (ins : QTree → Rect × ℕ → QTree) : QTree → Rect × ℕ → QTree
  | .node b lvl objs tl tr bl br, o =>
    match try_place ins o (tl, tr, bl, br) with
    | some c2 => .node b lvl objs c2.1 c2.2.1 c2.2.2.1 c2.2.2.2
    | none =>
      let objs2 := objs ++ [o]
      if objs2.length > MAX_OBJECTS ∧ lvl < MAX_LEVELS then
        let r := place_all ins objs2 (tl, tr, bl, br)
        .node b lvl r.1 r.2.1 r.2.2.1 r.2.2.2.1 r.2.2.2.2
      else .node b lvl objs2 tl tr bl br
  | .leaf b lvl objs, o =>
    let objs2 := objs ++ [o]
    if objs2.length > MAX_OBJECTS ∧ lvl < MAX_LEVELS then
      let r := place_all ins objs2 (split_children b lvl)
      .node b lvl r.1 r.2.1 r.2.2.1 r.2.2.2.1 r.2.2.2.2
    else .leaf b lvl objs2

/-- `insert` with explicit recursion-depth fuel. -/
def insertFuel : ℕ → QTree → Rect × ℕ → QTree
  | 0 => addLocal
  | f + 1 => insertStep (insertFuel f)

/-- `QuadTree.insert(rect, entity_id)`: the source's recursion descends one
level per call and never splits past `max_levels`, so `MAX_LEVELS + 2`
units of fuel are never exhausted on trees the source builds. -/
def QTree.insert (t : QTree) (o : Rect × ℕ) : QTree :=
  insertFuel (MAX_LEVELS + 2) t o

/-- A fresh per-category tree (`SpatialPartition.__init__`, lines 540-549):
level 0, no objects. -/
def emptyTree (b : Rect) : QTree := .leaf b 0 []

/-- `update_category` (lines 555-563): clear then insert every object. -/
def insert_all (t : QTree) (objs : List (Rect × ℕ)) : QTree :=
  objs.foldl QTree.insert t

/-- `retrieve` (lines 523-537): ids of stored objects overlapping the query
rect at this node, then recurse into every child whose bounds overlap the
query rect. -/
def retrieve (q : Rect) : QTree → List ℕ
  | .leaf _ _ objs =>
    objs.filterMap fun o => if check_collision q o.1 then some o.2 else none
  | .node _ _ objs tl tr bl br =>
    (objs.filterMap fun o => if check_collision q o.1 then some o.2 else none) ++
    (if check_collision q tl.bounds then retrieve q tl else []) ++
    (if check_collision q tr.bounds then retrieve q tr else []) ++
    (if check_collision q bl.bounds then retrieve q bl else []) ++
    (if check_collision q br.bounds then retrieve q br else [])

/-- All objects stored anywhere in the subtree. -/
def allObjs : QTree → List (Rect × ℕ)
  | .leaf _ _ objs => objs
  | .node _ _ objs tl tr bl br =>
    objs ++ allObjs tl ++ allObjs tr ++ allObjs bl ++ allObjs br

/-- The structural invariant `insert` maintains: every object stored in a
child subtree fits fully inside that child's bounds (objects that straddle
a split stay at the parent level). -/
def wellPlaced : QTree → Prop
  | .leaf _ _ _ => True
  | .node _ _ _ tl tr bl br =>
    ((∀ o ∈ allObjs tl, rect_fits o.1 tl.bounds = true) ∧ wellPlaced tl) ∧
    ((∀ o ∈ allObjs tr, rect_fits o.1 tr.bounds = true) ∧ wellPlaced tr) ∧
    ((∀ o ∈ allObjs bl, rect_fits o.1 bl.bounds = true) ∧ wellPlaced bl) ∧
    ((∀ o ∈ allObjs br, rect_fits o.1 br.bounds = true) ∧ wellPlaced br)

def allObjs4 (c : QTree × QTree × QTree × QTree) : List (Rect × ℕ) :=
  allObjs c.1 ++ allObjs c.2.1 ++ allObjs c.2.2.1 ++ allObjs c.2.2.2

def childrenWP (c : QTree × QTree × QTree × QTree) : Prop :=
  ((∀ o ∈ allObjs c.1, rect_fits o.1 c.1.bounds = true) ∧ wellPlaced c.1) ∧
  ((∀ o ∈ allObjs c.2.1, rect_fits o.1 c.2.1.bounds = true) ∧ wellPlaced c.2.1) ∧
  ((∀ o ∈ allObjs c.2.2.1, rect_fits o.1 c.2.2.1.bounds = true) ∧ wellPlaced c.2.2.1) ∧
  ((∀ o ∈ allObjs c.2.2.2, rect_fits o.1 c.2.2.2.bounds = true) ∧ wellPlaced c.2.2.2)

/-- A rect fully inside bounds that strictly overlaps the query makes the
query strictly overlap the bounds: `retrieve` therefore always visits the
child holding an overlapping object. -/
theorem overlap_of_fits {q r b : Rect} (hf : rect_fits r b = true)
    (ho : check_collision q r = true) : check_collision q b = true := by
  rw [check_collision_iff] at ho ⊢
  simp only [rect_fits, Bool.and_eq_true, decide_eq_true_eq, ge_iff_le] at hf
  obtain ⟨⟨⟨h1, h2⟩, h3⟩, h4⟩ := hf
  obtain ⟨o1, o2, o3, o4⟩ := ho
  exact ⟨by linarith, by linarith, by linarith, by linarith⟩

/-- The contract an insertion routine maintains: the node bounds are
unchanged, the stored objects are exactly the old ones plus the new one,
and `wellPlaced` is preserved. -/
def InsOK (ins : QTree → Rect × ℕ → QTree) : Prop :=
  ∀ t o, (ins t o).bounds = t.bounds ∧
    (∀ x, x ∈ allObjs (ins t o) ↔ x = o ∨ x ∈ allObjs t) ∧
    (wellPlaced t → wellPlaced (ins t o))

theorem allObjs_node_tuple (b : Rect) (lvl : ℕ) (objs : List (Rect × ℕ))
    (c : QTree × QTree × QTree × QTree) :
    allObjs (QTree.node b lvl objs c.1 c.2.1 c.2.2.1 c.2.2.2) = objs ++ allObjs4 c := by
  obtain ⟨a, b2, c3, d⟩ := c
  simp [allObjs, allObjs4]

theorem wellPlaced_node_tuple (b : Rect) (lvl : ℕ) (objs : List (Rect × ℕ))
    (c : QTree × QTree × QTree × QTree) :
    wellPlaced (QTree.node b lvl objs c.1 c.2.1 c.2.2.1 c.2.2.2) ↔ childrenWP c := by
  obtain ⟨a, b2, c3, d⟩ := c
  exact Iff.rfl

theorem insOK_addLocal : InsOK addLocal := by
  intro t o
  cases t with
  | leaf b lvl objs =>
    refine ⟨rfl, ?_, fun _ => trivial⟩
    intro x
    simp [addLocal, allObjs]
    tauto
  | node b lvl objs tl tr bl br =>
    refine ⟨rfl, ?_, ?_⟩
    · intro x
      simp [addLocal, allObjs]
      tauto
    · intro h
      exact h

theorem try_place_eq_some {ins : QTree → Rect × ℕ → QTree} (h : InsOK ins)
    (o : Rect × ℕ) (c c2 : QTree × QTree × QTree × QTree)
    (htp : try_place ins o c = some c2) :
    (∀ x, x ∈ allObjs4 c2 ↔ x = o ∨ x ∈ allObjs4 c) ∧
    (childrenWP c → childrenWP c2) := by
  simp only [try_place] at htp
  split_ifs at htp with h1 h2 h3 h4
  · injection htp with heq
    subst heq
    constructor
    · intro x
      simp only [allObjs4, List.mem_append, (h c.1 o).2.1 x]
      tauto
    · rintro ⟨⟨hf1, hw1⟩, hrest⟩
      refine ⟨⟨?_, (h c.1 o).2.2 hw1⟩, hrest⟩
      intro x hx
      rw [(h c.1 o).1]
      rcases ((h c.1 o).2.1 x).mp hx with rfl | hold
      · exact h1
      · exact hf1 x hold
  · injection htp with heq
    subst heq
    constructor
    · intro x
      simp only [allObjs4, List.mem_append, (h c.2.1 o).2.1 x]
      tauto
    · rintro ⟨hfst, ⟨hf2, hw2⟩, hrest⟩
      refine ⟨hfst, ⟨?_, (h c.2.1 o).2.2 hw2⟩, hrest⟩
      intro x hx
      rw [(h c.2.1 o).1]
      rcases ((h c.2.1 o).2.1 x).mp hx with rfl | hold
      · exact h2
      · exact hf2 x hold
  · injection htp with heq
    subst heq
    constructor
    · intro x
      simp only [allObjs4, List.mem_append, (h c.2.2.1 o).2.1 x]
      tauto
    · rintro ⟨hfst, hsnd, ⟨hf3, hw3⟩, hrest⟩
      refine ⟨hfst, hsnd, ⟨?_, (h c.2.2.1 o).2.2 hw3⟩, hrest⟩
      intro x hx
      rw [(h c.2.2.1 o).1]
      rcases ((h c.2.2.1 o).2.1 x).mp hx with rfl | hold
      · exact h3
      · exact hf3 x hold
  · injection htp with heq
    subst heq
    constructor
    · intro x
      simp only [allObjs4, List.mem_append, (h c.2.2.2 o).2.1 x]
      tauto
    · rintro ⟨hfst, hsnd, hthd, hf4, hw4⟩
      refine ⟨hfst, hsnd, hthd, ?_, (h c.2.2.2 o).2.2 hw4⟩
      intro x hx
      rw [(h c.2.2.2 o).1]
      rcases ((h c.2.2.2 o).2.1 x).mp hx with rfl | hold
      · exact h4
      · exact hf4 x hold

theorem place_all_spec {ins : QTree → Rect × ℕ → QTree} (h : InsOK ins) :
    ∀ (objs : List (Rect × ℕ)) (c : QTree × QTree × QTree × QTree),
      (∀ x, (x ∈ (place_all ins objs c).1 ∨ x ∈ allObjs4 (place_all ins objs c).2) ↔
        (x ∈ objs ∨ x ∈ allObjs4 c)) ∧
      (childrenWP c → childrenWP (place_all ins objs c).2) := by
  intro objs
  induction objs with
  | nil =>
    intro c
    constructor
    · intro x
      simp [place_all]
    · intro hc
      simpa [place_all] using hc
  | cons o rest ih =>
    intro c
    cases htp : try_place ins o c with
    | some c2 =>
      have hsome := try_place_eq_some h o c c2 htp
      constructor
      · intro x
        have h1 := (ih c2).1 x
        have h2 := hsome.1 x
        simp only [place_all, htp, List.mem_cons]
        tauto
      · intro hc
        simp only [place_all, htp]
        exact (ih c2).2 (hsome.2 hc)
    | none =>
      constructor
      · intro x
        have h1 := (ih c).1 x
        simp only [place_all, htp, List.mem_cons]
        tauto
      · intro hc
        simp only [place_all, htp]
        exact (ih c).2 hc

set_option maxHeartbeats 2000000 in
theorem insOK_insertStep {ins : QTree → Rect × ℕ → QTree} (h : InsOK ins) :
    InsOK (insertStep ins) := by
  intro t o
  cases t with
  | leaf b lvl objs =>
    simp only [insertStep]
    split
    · have hpa := place_all_spec h (objs ++ [o]) (split_children b lvl)
      refine ⟨rfl, ?_, ?_⟩
      · intro x
        rw [allObjs_node_tuple, List.mem_append]
        have h1 := hpa.1 x
        have hempty : allObjs4 (split_children b lvl) = [] := by
          simp [split_children, allObjs4, allObjs]
        rw [hempty] at h1
        simp only [List.mem_append, List.mem_singleton, List.not_mem_nil, or_false] at h1
        simp only [allObjs]
        tauto
      · intro _
        rw [wellPlaced_node_tuple]
        apply hpa.2
        simp [childrenWP, split_children, allObjs, wellPlaced]
    · refine ⟨rfl, ?_, ?_⟩
      · intro x
        simp only [allObjs, List.mem_append, List.mem_singleton]
        tauto
      · intro _
        simp [wellPlaced]
  | node b lvl objs tl tr bl br =>
    cases htp : try_place ins o (tl, tr, bl, br) with
    | some c2 =>
      have hsome := try_place_eq_some h o (tl, tr, bl, br) c2 htp
      simp only [insertStep, htp]
      refine ⟨rfl, ?_, ?_⟩
      · intro x
        rw [allObjs_node_tuple, List.mem_append]
        have h1 := hsome.1 x
        simp only [allObjs4, allObjs, List.mem_append] at h1 ⊢
        tauto
      · intro hwp
        rw [wellPlaced_node_tuple]
        exact hsome.2 ((wellPlaced_node_tuple b lvl objs (tl, tr, bl, br)).mp hwp)
    | none =>
      simp only [insertStep, htp]
      split
      · have hpa := place_all_spec h (objs ++ [o]) (tl, tr, bl, br)
        refine ⟨rfl, ?_, ?_⟩
        · intro x
          rw [allObjs_node_tuple, List.mem_append]
          have h1 := hpa.1 x
          simp only [List.mem_append, List.mem_singleton] at h1
          simp only [allObjs4, allObjs, List.mem_append] at h1 ⊢
          tauto
        · intro hwp
          rw [wellPlaced_node_tuple]
          exact hpa.2 hwp
      · refine ⟨rfl, ?_, ?_⟩
        · intro x
          simp only [allObjs, List.mem_append, List.mem_singleton]
          tauto
        · intro hwp
          exact hwp

theorem insOK_insertFuel (f : ℕ) : InsOK (insertFuel f) := by
  induction f with
  | zero => exact insOK_addLocal
  | succ f ih => exact insOK_insertStep ih

theorem insOK_insert : InsOK QTree.insert :=
  insOK_insertFuel (MAX_LEVELS + 2)

theorem mem_allObjs_insert_all :
    ∀ (objs : List (Rect × ℕ)) (t : QTree) (x : Rect × ℕ),
      x ∈ allObjs (insert_all t objs) ↔ x ∈ objs ∨ x ∈ allObjs t := by
  intro objs
  induction objs with
  | nil =>
    intro t x
    simp [insert_all]
  | cons o rest ih =>
    intro t x
    have hstep := (insOK_insert t o).2.1 x
    have hrec := ih (t.insert o) x
    simp only [insert_all, List.foldl_cons] at hrec ⊢
    rw [hrec, hstep, List.mem_cons]
    tauto

theorem wellPlaced_insert_all :
    ∀ (objs : List (Rect × ℕ)) (t : QTree), wellPlaced t →
      wellPlaced (insert_all t objs) := by
  intro objs
  induction objs with
  | nil =>
    intro t h
    simpa [insert_all] using h
  | cons o rest ih =>
    intro t h
    have hrec := ih (t.insert o) ((insOK_insert t o).2.2 h)
    simpa only [insert_all, List.foldl_cons] using hrec

/-- `retrieve` returns every stored object overlapping the query: the
query's strict overlap with an object propagates to every ancestor child's
bounds (the object fits them), so the recursion always visits the node
holding it. -/
theorem mem_retrieve_of_wellPlaced (q : Rect) :
    ∀ (t : QTree), wellPlaced t → ∀ (r : Rect) (i : ℕ), (r, i) ∈ allObjs t →
      check_collision q r = true → i ∈ retrieve q t := by
  intro t
  induction t with
  | leaf b lvl objs =>
    intro _ r i hmem hov
    simp only [retrieve, List.mem_filterMap]
    refine ⟨(r, i), by simpa [allObjs] using hmem, by simp [hov]⟩
  | node b lvl objs tl tr bl br ih1 ih2 ih3 ih4 =>
    intro hwp r i hmem hov
    obtain ⟨⟨hf1, hw1⟩, ⟨hf2, hw2⟩, ⟨hf3, hw3⟩, hf4, hw4⟩ := hwp
    simp only [allObjs, List.mem_append, or_assoc] at hmem
    simp only [retrieve, List.mem_append, or_assoc]
    rcases hmem with hm | hm | hm | hm | hm
    · refine Or.inl ?_
      simp only [List.mem_filterMap]
      exact ⟨(r, i), hm, by simp [hov]⟩
    · refine Or.inr (Or.inl ?_)
      rw [if_pos (overlap_of_fits (hf1 (r, i) hm) hov)]
      exact ih1 hw1 r i hm hov
    · refine Or.inr (Or.inr (Or.inl ?_))
      rw [if_pos (overlap_of_fits (hf2 (r, i) hm) hov)]
      exact ih2 hw2 r i hm hov
    · refine Or.inr (Or.inr (Or.inr (Or.inl ?_)))
      rw [if_pos (overlap_of_fits (hf3 (r, i) hm) hov)]
      exact ih3 hw3 r i hm hov
    · refine Or.inr (Or.inr (Or.inr (Or.inr ?_)))
      rw [if_pos (overlap_of_fits (hf4 (r, i) hm) hov)]
      exact ih4 hw4 r i hm hov

/-- C8: after any sequence of insertions into a fresh quad-tree, a query
returns the id of every inserted object whose rectangle strictly overlaps
the query rectangle — `insert` keeps straddling objects at the parent
level (`wellPlaced`), and `retrieve` recurses into every child whose
bounds intersect the query, so no overlapping object is missed. -/
theorem quadtree_query_complete (b : Rect) (inserts : List (Rect × ℕ))
    (q r : Rect) (i : ℕ) (hmem : (r, i) ∈ inserts)
    (hov : check_collision q r = true) :
    i ∈ retrieve q (insert_all (emptyTree b) inserts) := by
  have hwp : wellPlaced (insert_all (emptyTree b) inserts) :=
    wellPlaced_insert_all inserts (emptyTree b) (by simp [emptyTree, wellPlaced])
  have hmem2 : (r, i) ∈ allObjs (insert_all (emptyTree b) inserts) :=
    (mem_allObjs_insert_all inserts (emptyTree b) (r, i)).mpr (Or.inl hmem)
  exact mem_retrieve_of_wellPlaced q _ hwp r i hmem2 hov

/-- Witness for C8: one object inserted into the world-sized tree,
retrieved by an overlapping query. -/
theorem quadtree_query_complete_witness :
    5 ∈ retrieve ⟨0, 0, 50, 50⟩
      (insert_all (emptyTree ⟨0, 0, 4000, 3000⟩) [(⟨10, 10, 30, 30⟩, 5)]) :=
  quadtree_query_complete ⟨0, 0, 4000, 3000⟩ [(⟨10, 10, 30, 30⟩, 5)]
    ⟨0, 0, 50, 50⟩ ⟨10, 10, 30, 30⟩ 5 (by simp)
    (by simp only [check_collision]; norm_num)

/-!  Player movement and collision resolution,
`MovementSystem._move_player` lines 757-911.

The desired displacement direction `(dirX, dirY)` is passed in already
normalized: the source normalizes `(move_x, move_y)` with `math.sqrt`
(lines 766-772), which is exact for the axial and zero cases used below;
the raw integer intents `moveX, moveY` are kept for the slide conditions
and the facing-direction update.  The obstacle list is the result of the
nearby-obstacle query (lines 787-801) converted to rectangles by
`get_entity_rect`; the blocking obstacle is tracked by its index in that
list (Python compares the objects by identity).  The float literal `0.3`
of the slide speed is modelled as `3/10`. -/

def WORLD_WIDTH : ℚ := 4000

def WORLD_HEIGHT : ℚ := 3000

def CORNER_SLIDE_THRESHOLD : ℚ := 8

/-- The per-tick inputs of `_move_player`: position, input intent,
velocity component, size component and the queried obstacle rectangles. -/
structure MoveInput where
  oldX : ℚ
  oldY : ℚ
  moveX : ℤ
  moveY : ℤ
  dirX : ℚ
  dirY : ℚ
  speed : ℚ
  dt : ℚ
  width : ℚ
  height : ℚ
  margin : ℚ
  prevVelX : ℚ
  prevVelY : ℚ
  lastDirX : ℚ
  lastDirY : ℚ
  obstacles : List Rect
deriving DecidableEq, Repr

/-- The state `_move_player` writes back: final position (after the
world-bounds clamp of lines 910-911), the position before that clamp, the
derived velocity (lines 883-885) and the facing direction (lines
905-907). -/
structure MoveResult where
  x : ℚ
  y : ℚ
  preX : ℚ
  preY : ℚ
  velX : ℚ
  velY : ℚ
  lastDirX : ℚ
  lastDirY : ℚ
deriving DecidableEq, Repr

/-- The obstacle scan of lines 807-826: walks the obstacle list tracking
`can_move_x`, `can_move_y` and the last colliding obstacle (by index), and
breaks early once both axes are blocked. -/
def scan_obstacles (newRect testXRect testYRect : Rect) :
    List Rect → ℕ → Bool → Bool → Option ℕ → Bool × Bool × Option ℕ
  | [], _, cx, cy, blk => (cx, cy, blk)
  | o :: rest, idx, cx, cy, blk =>
    if check_collision newRect o then
      let cx2 := cx && ! check_collision testXRect o
      let cy2 := cy && ! check_collision testYRect o
      if cx2 = false ∧ cy2 = false then (cx2, cy2, some idx)
      else scan_obstacles newRect testXRect testYRect rest (idx + 1) cx2 cy2 (some idx)
    else scan_obstacles newRect testXRect testYRect rest (idx + 1) cx cy blk

/-- `any(check_collision(test_slide_rect, get_entity_rect(o)) for o in
obstacles if o != blocking_obstacle)` (lines 855/860/874/879). -/
def any_collision_except (r : Rect) (obstacles : List Rect) (blk : ℕ) : Bool :=
  obstacles.enum.any fun p => decide (p.1 ≠ blk) && check_collision r p.2

/-- The corner-slide heuristic of lines 829-880, applied to the tentative
`(newX, newY)`.  Only runs when a blocking obstacle was recorded and at
least one axis is blocked; slides at 3/10 of the frame speed, only when
the player's hitbox center is within `CORNER_SLIDE_THRESHOLD` of the
obstacle's far or near edge, and only when the slid rectangle collides
with no other obstacle. -/
def slide_adjust (i : MoveInput) (newX newY : ℚ) (canX canY : Bool)
    (blk : Option ℕ) : ℚ × ℚ :=
  match blk with
  | none => (newX, newY)
  | some idx =>
    if canX = false ∨ canY = false then
      let obsR := i.obstacles.getD idx ⟨0, 0, 0, 0⟩
      let hs := i.width - i.margin * 2
      let pcx := i.oldX + i.margin + hs / 2
      let pcy := i.oldY + i.margin + hs / 2
      let p1 :=
        if i.moveX ≠ 0 ∧ canX = false ∧ canY = true then
          if |pcy - (obsR.y + obsR.h)| < CORNER_SLIDE_THRESHOLD then
            let slideY := i.speed * i.dt * (3 / 10)
            if any_collision_except ⟨newX + i.margin, i.oldY + i.margin + slideY, hs, hs⟩
                i.obstacles idx then (newX, newY)
            else (newX, newY + slideY)
          else if |pcy - obsR.y| < CORNER_SLIDE_THRESHOLD then
            let slideY := -(i.speed * i.dt * (3 / 10))
            if any_collision_except ⟨newX + i.margin, i.oldY + i.margin + slideY, hs, hs⟩
                i.obstacles idx then (newX, newY)
            else (newX, newY + slideY)
          else (newX, newY)
        else (newX, newY)
      if i.moveY ≠ 0 ∧ canY = false ∧ canX = true then
        if |pcx - (obsR.x + obsR.w)| < CORNER_SLIDE_THRESHOLD then
          let slideX := i.speed * i.dt * (3 / 10)
          if any_collision_except ⟨i.oldX + i.margin + slideX, p1.2 + i.margin, hs, hs⟩
              i.obstacles idx then p1
          else (p1.1 + slideX, p1.2)
        else if |pcx - obsR.x| < CORNER_SLIDE_THRESHOLD then
          let slideX := -(i.speed * i.dt * (3 / 10))
          if any_collision_except ⟨i.oldX + i.margin + slideX, p1.2 + i.margin, hs, hs⟩
              i.obstacles idx then p1
          else (p1.1 + slideX, p1.2)
        else p1
      else p1
    else (newX, newY)

/-- The final re-verification of lines 887-899: take the per-axis resolved
position and revert to the pre-tick position if the resulting hitbox still
overlaps any queried obstacle (the loop breaks on the first overlap, which
is equivalent to an any-test). -/
def resolve_final (oldX oldY fx fy margin hs : ℚ) (obstacles : List Rect) : ℚ × ℚ :=
  if obstacles.any fun o => check_collision ⟨fx + margin, fy + margin, hs, hs⟩ o then
    (oldX, oldY)
  else (fx, fy)

/-- `max(lo, min(hi, v))` as in the world-bounds clamp (lines 910-911). -/
def clamp_world (lo hi v : ℚ) : ℚ := max lo (min hi v)

/-- `MovementSystem._move_player` (lines 757-911) for one player tick. -/
def move_player (i : MoveInput) : MoveResult :=
  let hs := i.width - i.margin * 2
  let newX0 := i.oldX + i.dirX * i.speed * i.dt
  let newY0 := i.oldY + i.dirY * i.speed * i.dt
  let scan := scan_obstacles ⟨newX0 + i.margin, newY0 + i.margin, hs, hs⟩
    ⟨newX0 + i.margin, i.oldY + i.margin, hs, hs⟩
    ⟨i.oldX + i.margin, newY0 + i.margin, hs, hs⟩ i.obstacles 0 true true none
  let canX := scan.1
  let canY := scan.2.1
  let adjusted := slide_adjust i newX0 newY0 canX canY scan.2.2
  let velX := if i.dt > 0 then (if canX then (adjusted.1 - i.oldX) / i.dt else 0)
    else i.prevVelX
  let velY := if i.dt > 0 then (if canY then (adjusted.2 - i.oldY) / i.dt else 0)
    else i.prevVelY
  let fx := if canX then adjusted.1 else i.oldX
  let fy := if canY then adjusted.2 else i.oldY
  let pre := resolve_final i.oldX i.oldY fx fy i.margin hs i.obstacles
  let ldX := if i.moveX ≠ 0 ∨ i.moveY ≠ 0 then (i.moveX : ℚ) else i.lastDirX
  let ldY := if i.moveX ≠ 0 ∨ i.moveY ≠ 0 then (i.moveY : ℚ) else i.lastDirY
  { x := clamp_world (pyFloorDiv i.width 2) (WORLD_WIDTH - pyFloorDiv i.width 2) pre.1,
    y := clamp_world (pyFloorDiv i.height 2) (WORLD_HEIGHT - pyFloorDiv i.height 2) pre.2,
    preX := pre.1, preY := pre.2, velX := velX, velY := velY,
    lastDirX := ldX, lastDirY := ldY }

theorem resolve_final_spec (oldX oldY fx fy margin hs : ℚ) (obstacles : List Rect) :
    (∀ o ∈ obstacles,
      check_collision ⟨(resolve_final oldX oldY fx fy margin hs obstacles).1 + margin,
        (resolve_final oldX oldY fx fy margin hs obstacles).2 + margin, hs, hs⟩ o = false) ∨
    ((resolve_final oldX oldY fx fy margin hs obstacles).1 = oldX ∧
     (resolve_final oldX oldY fx fy margin hs obstacles).2 = oldY) := by
  by_cases h :
      (obstacles.any fun o => check_collision ⟨fx + margin, fy + margin, hs, hs⟩ o) = true
  · right
    simp [resolve_final, h]
  · left
    have hfalse :
        (obstacles.any fun o => check_collision ⟨fx + margin, fy + margin, hs, hs⟩ o) = false :=
      Bool.eq_false_iff.mpr h
    intro o ho
    simp only [resolve_final, hfalse, Bool.false_eq_true, if_false]
    exact Bool.eq_false_iff.mpr (List.any_eq_false.mp hfalse o ho)

/-- C1 (amended): the final re-verification makes the position computed
BEFORE the world-bounds clamp safe — that pre-clamp position either has a
hitbox overlapping none of the queried obstacles, or equals the pre-tick
position.  (The subsequent clamp of lines 910-911 runs after the check and
can move the player back into an obstacle near the world edge, see the
counterexample.) -/
theorem move_player_backstop (i : MoveInput) :
    (∀ o ∈ i.obstacles,
      check_collision ⟨(move_player i).preX + i.margin, (move_player i).preY + i.margin,
        i.width - i.margin * 2, i.width - i.margin * 2⟩ o = false) ∨
    ((move_player i).preX = i.oldX ∧ (move_player i).preY = i.oldY) := by
  simp only [move_player]
  exact resolve_final_spec i.oldX i.oldY _ _ i.margin _ i.obstacles

/-- The concrete counterexample tick for C1: a 30×30 player (hitbox margin
4) at `(60, 100)` holding left during a `dt = 1/3` lag frame at speed 150,
with one queried obstacle at `(36, 95, 28, 30)`. -/
def c1_input : MoveInput :=
  ⟨60, 100, -1, 0, -1, 0, 150, 1 / 3, 30, 30, 4, 0, 0, 0, 1, [⟨36, 95, 28, 30⟩]⟩

/-- Counterexample to C1 as stated: the tentative position `(10, 100)`
passes the final re-verification (its hitbox overlaps nothing), but the
world-bounds clamp of lines 910-911 — which runs AFTER the re-verification
— pushes the player back to `x = 15`, whose hitbox `(19, 104, 22, 22)`
overlaps the queried obstacle.  The pre-tick position was legal (conjunct
4) and the obstacle lies inside the nearby-obstacle query rectangle
`(new_x - 60, new_y - 60, 150, 150)` (conjunct 6), so after the system
runs, a (player, solid nearby obstacle) interpenetration persists, and the
final position is neither collision-free nor the pre-tick position. -/
theorem move_player_clamp_reintroduces_overlap :
    (move_player c1_input).x = 15 ∧ (move_player c1_input).y = 100 ∧
    check_collision ⟨(move_player c1_input).x + 4, (move_player c1_input).y + 4, 22, 22⟩
      ⟨36, 95, 28, 30⟩ = true ∧
    check_collision ⟨60 + 4, 100 + 4, 22, 22⟩ ⟨36, 95, 28, 30⟩ = false ∧
    (move_player c1_input).preX = 10 ∧
    check_collision ⟨10 - 60, 100 - 60, 150, 150⟩ ⟨36, 95, 28, 30⟩ = true := by
  norm_num [c1_input, move_player, scan_obstacles, slide_adjust, resolve_final,
    clamp_world, pyFloorDiv, check_collision, WORLD_WIDTH, WORLD_HEIGHT,
    CORNER_SLIDE_THRESHOLD]

end Game
